import Mathlib

/-!
Verification of the `lqe` scalar estimator library (src/lib.rs).

The source is a single Rust file defining `struct LQE { measurement: f64,
variance: f64 }` with four pure methods: `update`, `predict`, `next`,
`result`.  All arithmetic is scalar 64-bit floating point.

Two embeddings are used:

* an exact-arithmetic model over `ℚ`, faithful to the source line by line,
  for the functional and algebraic claims (every intermediate value of the
  concrete test scenarios is computed by exact field arithmetic, and for the
  scenarios pinned by the library's own tests each intermediate quotient is
  exactly representable, so exact arithmetic agrees with the f64 run);

* a special-values model `EF` (finite rationals together with signed
  infinities and NaN, combined by the IEEE-754 rules for special operands;
  exact arithmetic on finite operands, except that a result whose magnitude
  reaches the IEEE binary64 round-to-nearest overflow threshold
  `2^1024 - 2^970` becomes a signed infinity, as in f64) for the claims
  about NaN production and finiteness of results.
-/

/-- Exact-arithmetic model of the Rust struct `LQE` from src/lib.rs:
a measurement (the mean of the belief) and a variance. -/
structure LQE where
  measurement : ℚ
  variance : ℚ
deriving DecidableEq, Repr

/-- Model of `LQE::update` (src/lib.rs lines 56-65), line by line:
`a = self.variance + variance`, `c = self.measurement * variance +
measurement * self.variance`, `m = (1.0 / a) * c`, `b = self.variance *
measurement`, `z = b / a`, returning `(m, z)`. -/
def LQE.update (self : LQE) (measurement : ℚ) (variance : ℚ) : ℚ × ℚ :=
  let a := self.variance + variance
  let c := (self.measurement * variance) + (measurement * self.variance)
  let m := (1 / a) * c
  let b := self.variance * measurement
  let z := b / a
  (m, z)

/-- Model of `LQE::predict` (src/lib.rs lines 80-84):
`(self.measurement + measurement, self.variance + variance)`. -/
def LQE.predict (self : LQE) (measurement : ℚ) (variance : ℚ) : ℚ × ℚ :=
  let predicted_measurement := self.measurement + measurement
  let predicted_variance := self.variance + variance
  (predicted_measurement, predicted_variance)

/-- Model of `LQE::next` (src/lib.rs lines 96-107): compute
`prediction = self.predict(measurement, variance)`, build
`mid_filter = LQE { measurement, variance }`, then
`mid_filter.update(prediction.0, prediction.1)`, packed into a new `LQE`. -/
def LQE.next (self : LQE) (measurement : ℚ) (variance : ℚ) : LQE :=
  let prediction := self.predict measurement variance
  let mid_filter : LQE := { measurement := measurement, variance := variance }
  let updated_result := mid_filter.update prediction.1 prediction.2
  { measurement := updated_result.1, variance := updated_result.2 }

/-- Model of `LQE::result` (src/lib.rs lines 119-121):
returns the stored `(measurement, variance)` pair. -/
def LQE.result (self : LQE) : ℚ × ℚ :=
  (self.measurement, self.variance)

/-- The program "perform one step on `b`, then call `result()` on the
original belief `b`": returns the fresh belief produced by the step together
with the observation made on the original value.  In the source, `next`
takes `&self` (an immutable borrow), so the original value is unchanged;
this definition makes that observation sequence explicit. -/
def stepAndObserve (b : LQE) (m v : ℚ) : LQE × (ℚ × ℚ) :=
  let stepped := b.next m v
  let observed := b.result
  (stepped, observed)

/-- C1: for every belief `b` and inputs `m`, `v`, the variance component
returned by `update` equals `(b.variance * m) / (b.variance + v)` — the
belief's variance multiplied by the raw measurement value, divided by the
sum of the two variances. -/
theorem update_variance_formula (b : LQE) (m v : ℚ) :
    (b.update m v).2 = (b.variance * m) / (b.variance + v) := rfl

/-- C2: for every belief `b` and inputs `m`, `v`, the mean component
returned by `update` equals
`(b.measurement * v + m * b.variance) / (b.variance + v)`. -/
theorem update_mean_formula (b : LQE) (m v : ℚ) :
    (b.update m v).1 =
      (b.measurement * v + m * b.variance) / (b.variance + v) := by
  simp only [LQE.update]
  rw [one_div, inv_mul_eq_div]

/-- C3: for every belief `b` and inputs `m`, `v`, `next b m v` equals the
belief obtained by first computing `predicted = predict b m v`, then
building the intermediate belief `{measurement := m, variance := v}`, and
returning `update intermediate predicted.1 predicted.2` packed as a new
belief. -/
theorem next_is_predict_then_update (b : LQE) (m v : ℚ) :
    b.next m v =
      (let predicted := b.predict m v
       let intermediate : LQE := { measurement := m, variance := v }
       let fused := intermediate.update predicted.1 predicted.2
       ({ measurement := fused.1, variance := fused.2 } : LQE)) := rfl

/-- C4: from the belief `(3, 2)`, one step with measurement `5` and
variance `3` yields `result() = (6.125, 3)`, and a further step with
measurement `7` and variance `1` yields `result() = (8.225, 2.625)`. -/
theorem filter_runs_concrete :
    (((⟨3, 2⟩ : LQE).next 5 3).result = ((6.125 : ℚ), (3 : ℚ))) ∧
      ((((⟨3, 2⟩ : LQE).next 5 3).next 7 1).result
        = ((8.225 : ℚ), (2.625 : ℚ))) := by
  constructor <;>
    · simp only [LQE.next, LQE.predict, LQE.update, LQE.result]
      norm_num

/-- C5: for every belief `b` and inputs `m`, `v`, `predict` returns exactly
the pair `(b.measurement + m, b.variance + v)`. -/
theorem predict_is_additive (b : LQE) (m v : ℚ) :
    b.predict m v = (b.measurement + m, b.variance + v) := rfl

/-- C6: for every belief `b`, `result` returns exactly the stored pair
`(b.measurement, b.variance)`. -/
theorem result_is_projection (b : LQE) :
    b.result = (b.measurement, b.variance) := rfl

/-- C9: performing a step on a belief `b` does not change `b`: the
observation made by `result()` on the original belief after the step is the
same pair as before the step. -/
theorem step_does_not_mutate (b : LQE) (m v : ℚ) :
    (stepAndObserve b m v).2 = b.result := rfl

/-- C10: the mean component of `update` is symmetric under exchanging the
belief with the observation, while the variance component is not: for all
`e1 v1 e2 v2` the mean components of
`update ⟨e1, v1⟩ e2 v2` and `update ⟨e2, v2⟩ e1 v1` agree, and there is a
concrete input where the variance components differ. -/
theorem update_mean_symmetric_variance_not :
    (∀ e1 v1 e2 v2 : ℚ,
        ((⟨e1, v1⟩ : LQE).update e2 v2).1 = ((⟨e2, v2⟩ : LQE).update e1 v1).1)
    ∧ ∃ e1 v1 e2 v2 : ℚ,
        ((⟨e1, v1⟩ : LQE).update e2 v2).2
          ≠ ((⟨e2, v2⟩ : LQE).update e1 v1).2 := by
  constructor
  · intro e1 v1 e2 v2
    simp only [LQE.update]
    rw [add_comm v1 v2, add_comm (e1 * v2) (e2 * v1)]
  · exact ⟨0, 1, 1, 1, by norm_num [LQE.update]⟩

/-! ### Special-values model for the floating-point claims

`EF` models an f64 as either NaN, a signed infinity, or an exact finite
rational.  The special-operand rules follow IEEE 754: NaN propagates,
`±∞ + ∓∞ = NaN`, `±∞ * 0 = NaN`, `∞ / ∞ = NaN`, `finite / 0` is `NaN` when
the numerator is zero and a signed infinity otherwise, `finite / ∞ = 0`,
and comparisons involving NaN are false.  Arithmetic on finite operands is
exact, except that an exact result whose magnitude reaches the IEEE
binary64 round-to-nearest overflow threshold `2^1024 - 2^970` overflows to
a signed infinity, as f64 arithmetic does (rounding of in-range finite
results is not modelled).  A model value `fin q` with `|q|` at or beyond
the largest finite double `(2^53 - 1) * 2^971` represents no f64 value. -/
inductive EF where
  | nan : EF
  | infty : Bool → EF
  | fin : ℚ → EF
deriving DecidableEq, Repr

/-- The smallest magnitude at which an exact result of an f64 operation
rounds to infinity under round-to-nearest-even: `2^1024 - 2^970`. -/
def EF.ovfThreshold : ℚ := 2 ^ 1024 - 2 ^ 970

/-- Packs the exact rational result of an operation on finite operands:
magnitudes at or beyond `EF.ovfThreshold` overflow to a signed infinity
(an exact zero is treated as `+0`, so the sign is negative exactly when
the result is negative); in-range results are kept exact. -/
def EF.pack (q : ℚ) : EF :=
  if EF.ovfThreshold ≤ |q| then .infty (decide (q < 0)) else .fin q

/-- IEEE addition on special values; exact rational addition on finite
operands, overflowing per `EF.pack`. `infty true` is `-∞`, `infty false`
is `+∞`. -/
def EF.add : EF → EF → EF
  | .nan, _ => .nan
  | _, .nan => .nan
  | .infty s, .infty t => if s = t then .infty s else .nan
  | .infty s, .fin _ => .infty s
  | .fin _, .infty s => .infty s
  | .fin a, .fin b => EF.pack (a + b)

/-- IEEE multiplication on special values; exact rational multiplication on
finite operands, overflowing per `EF.pack`. `±∞ * 0 = NaN`; otherwise signs
combine by xor (a finite zero is treated as `+0`). -/
def EF.mul : EF → EF → EF
  | .nan, _ => .nan
  | _, .nan => .nan
  | .infty s, .infty t => .infty (xor s t)
  | .infty s, .fin q => if q = 0 then .nan else .infty (xor s (decide (q < 0)))
  | .fin q, .infty s => if q = 0 then .nan else .infty (xor s (decide (q < 0)))
  | .fin a, .fin b => EF.pack (a * b)

/-- IEEE division on special values; exact rational division on finite
operands, overflowing per `EF.pack`. `∞ / ∞ = NaN`; `0 / 0 = NaN`; nonzero
finite over zero is a signed infinity (a finite zero is treated as `+0`). -/
def EF.div : EF → EF → EF
  | .nan, _ => .nan
  | _, .nan => .nan
  | .infty _, .infty _ => .nan
  | .infty s, .fin q => .infty (xor s (decide (q < 0)))
  | .fin _, .infty _ => .fin 0
  | .fin a, .fin b =>
      if b = 0 then (if a = 0 then .nan else .infty (decide (a < 0)))
      else EF.pack (a / b)

/-- IEEE strict less-than: any comparison with NaN is false; `-∞` is below
every non-NaN value other than itself; `+∞` is above. -/
def EF.lt : EF → EF → Bool
  | .nan, _ => false
  | _, .nan => false
  | .infty s, .infty t => s && !t
  | .infty s, .fin _ => s
  | .fin _, .infty s => !s
  | .fin a, .fin b => decide (a < b)

/-- An `EF` value is finite exactly when it is neither NaN nor infinite. -/
def EF.isFinite : EF → Bool
  | .fin _ => true
  | _ => false

/-- The Rust struct `LQE` with its two f64 fields interpreted in the
special-values model `EF`. -/
structure LQEF where
  measurement : EF
  variance : EF
deriving DecidableEq, Repr

/-- Model of `LQE::update` (src/lib.rs lines 56-65) over the special-values
model `EF`, line by line as in `LQE.update`; `1.0` is the finite literal
`EF.fin 1`. -/
def LQEF.update (self : LQEF) (measurement : EF) (variance : EF) : EF × EF :=
  let a := EF.add self.variance variance
  let c := EF.add (EF.mul self.measurement variance) (EF.mul measurement self.variance)
  let m := EF.mul (EF.div (EF.fin 1) a) c
  let b := EF.mul self.variance measurement
  let z := EF.div b a
  (m, z)

/-- C8: when both variances are zero (with finite estimate and finite
measurement), `update` returns NaN in both components, by the standard
floating-point division-by-zero rules, with no guard and no signaled
failure. -/
theorem update_zero_variances_nan (e m : ℚ) :
    (LQEF.update ⟨EF.fin e, EF.fin 0⟩ (EF.fin m) (EF.fin 0))
      = (EF.nan, EF.nan) := by
  norm_num [LQEF.update, EF.add, EF.mul, EF.div, EF.pack, EF.ovfThreshold]

/-- C8 witness: the NaN result evaluated at the concrete belief
`(estimate 3, variance 0)` with measurement `5` and variance `0`. -/
theorem update_zero_variances_nan_witness :
    (LQEF.update ⟨EF.fin 3, EF.fin 0⟩ (EF.fin 5) (EF.fin 0))
      = (EF.nan, EF.nan) :=
  update_zero_variances_nan 3 5

/-- C7 counterexample: the claim "for any belief `b` and any `m`, `v` with
`v > 0`, the variance component of `update` is finite" fails at three
concrete inputs, each with `v = 1 > 0`: a belief with variance `+∞` and
`m = 1` gives `∞ / ∞ = NaN`; a belief with variance `10^300` and
`m = 10^300` makes the product `10^600` overflow to `+∞`, so the variance
component is `+∞`; a belief with variance `-1` and `m = 1` makes the
variance sum zero, so the variance component is `-1 / 0 = -∞`. -/
theorem update_variance_not_finite_cases :
    (EF.lt (EF.fin 0) (EF.fin 1) = true ∧
      ((LQEF.update ⟨EF.fin 0, EF.infty false⟩ (EF.fin 1) (EF.fin 1)).2).isFinite
        = false) ∧
    (EF.lt (EF.fin 0) (EF.fin 1) = true ∧
      ((LQEF.update ⟨EF.fin 0, EF.fin (10 ^ 300)⟩ (EF.fin (10 ^ 300))
          (EF.fin 1)).2).isFinite = false) ∧
    (EF.lt (EF.fin 0) (EF.fin 1) = true ∧
      ((LQEF.update ⟨EF.fin 0, EF.fin (-1)⟩ (EF.fin 1) (EF.fin 1)).2).isFinite
        = false) := by
  refine ⟨⟨by decide, by decide⟩, ⟨by decide, ?_⟩, ⟨by decide, ?_⟩⟩
  · have h1 : ¬ EF.ovfThreshold ≤ |(10 : ℚ) ^ 300 + 1| := by
      rw [abs_of_nonneg (by positivity)]
      norm_num [EF.ovfThreshold]
    have h2 : EF.ovfThreshold ≤ (10 : ℚ) ^ 300 * 10 ^ 300 := by
      norm_num [EF.ovfThreshold]
    simp [LQEF.update, EF.add, EF.mul, EF.div, EF.pack, EF.isFinite, h1, h2]
  · norm_num [LQEF.update, EF.add, EF.mul, EF.div, EF.pack, EF.ovfThreshold,
      EF.isFinite]

/-- C7 amended: for a belief whose variance is a finite non-negative `bv`
(and whose own measurement component is arbitrary), a finite measurement
`m` whose magnitude is below the f64 overflow threshold (as every finite
double is) and whose exact product with `bv` is also below that threshold,
and any `v > 0` (finite or `+∞`), the variance component of `update` is
finite. -/
theorem update_variance_finite (me : EF) (bv m : ℚ) (v : EF)
    (hbv : 0 ≤ bv) (hm : |m| < EF.ovfThreshold)
    (hbm : |bv * m| < EF.ovfThreshold)
    (hv : EF.lt (EF.fin 0) v = true) :
    ((LQEF.update ⟨me, EF.fin bv⟩ (EF.fin m) v).2).isFinite = true := by
  cases v with
  | nan => simp [EF.lt] at hv
  | infty s =>
    cases s with
    | true => simp [EF.lt] at hv
    | false =>
      simp [LQEF.update, EF.add, EF.mul, EF.div, EF.pack, EF.isFinite,
        not_le.mpr hbm]
  | fin q =>
    have hq : 0 < q := by simpa [EF.lt] using hv
    have hpos : 0 < bv + q := by linarith
    by_cases hA : EF.ovfThreshold ≤ |bv + q|
    · simp [LQEF.update, EF.add, EF.mul, EF.div, EF.pack, EF.isFinite, hA,
        not_le.mpr hbm]
    · have hne : bv + q ≠ 0 := ne_of_gt hpos
      have hZ : |bv * m / (bv + q)| < EF.ovfThreshold := by
        rw [abs_div, abs_mul, abs_of_nonneg hbv, abs_of_pos hpos]
        calc bv * |m| / (bv + q) ≤ |m| := by
              rw [div_le_iff₀ hpos]
              nlinarith [abs_nonneg m]
          _ < EF.ovfThreshold := hm
      simp [LQEF.update, EF.add, EF.mul, EF.div, EF.pack, EF.isFinite, hA,
        hne, not_le.mpr hbm, not_le.mpr hZ]

/-- C7 amended witness: at the concrete belief `(measurement 0, variance 2)`
with measurement `5` and variance `3`, every hypothesis holds and the
variance component of `update` is finite. -/
theorem update_variance_finite_witness :
    (0 : ℚ) ≤ 2 ∧ |(5 : ℚ)| < EF.ovfThreshold ∧
      |(2 : ℚ) * 5| < EF.ovfThreshold ∧
      EF.lt (EF.fin 0) (EF.fin 3) = true ∧
      ((LQEF.update ⟨EF.fin 0, EF.fin 2⟩ (EF.fin 5) (EF.fin 3)).2).isFinite
        = true :=
  ⟨by norm_num, by rw [abs_of_nonneg] <;> norm_num [EF.ovfThreshold],
    by rw [abs_of_nonneg] <;> norm_num [EF.ovfThreshold], by decide,
    update_variance_finite (EF.fin 0) 2 5 (EF.fin 3) (by norm_num)
      (by rw [abs_of_nonneg] <;> norm_num [EF.ovfThreshold])
      (by rw [abs_of_nonneg] <;> norm_num [EF.ovfThreshold]) (by decide)⟩
